import Mathlib

/-!
# Table-driven debounce FSM (`BaseProject/main.cpp`)

A shallow embedding of the button debouncer of the firmware: the transition table
`fsmTable`, the per-button records `myButtons`, the sampling gate and the table
scan of `updateDebounceFsm`, `initializeButtons` and the callback
`onButtonEvent`.

Conventions of the embedding.

* Globals of the translation unit (and the function-local `static`
  `timeToDebounce`) are fields of one record `Sys`, threaded through every
  function.
* `uint16_t` and `uint8_t` objects are `Nat`s, reduced modulo `2 ^ 16` and
  `2 ^ 8` wherever the source stores into them. `int` values are `Int`s; the
  only `int` arithmetic of the program is `read_ms() - timestamp`, which is
  exact as long as no signed overflow occurs.
* The two hardware reads of a call (`myTimer.read_ms()`, `buttonArray`) are
  arguments of `updateDebounceFsm`.
* Four fields of `Sys` are ghost instrumentation, never read by the program:
  `calls` logs the parameter of every call made through the `action` pointer of
  a button, oldest first, and is appended to at the call site in the table
  scan; `samples` counts the executions of the sampling block and `scans` the
  executions of the table scan; `fault` is raised by a call through a null
  `action` pointer, which is undefined behaviour: from then on the other
  fields no longer describe the program.
-/

namespace DebounceFsm

/-! ## Constants and enumerations -/

/-- Number of buttons, `#define NUMBUTT 4`. -/
abbrev NUMBUTT : Nat := 4

/-- Heartbeat period in milliseconds, `#define HEARBEATTIME 1000`. -/
abbrev HEARBEATTIME : Int := 1000

/-- Interval between two reads of the buttons, `#define DEBOUNCETIME 40`. -/
abbrev DEBOUNCETIME : Int := 40

/-- States of the debounce machine, in the order of the source enumeration. -/
inductive _eButtonState where
  | BUTTON_DOWN
  | BUTTON_UP
  | BUTTON_FALLING
  | BUTTON_RISING
  deriving DecidableEq, Repr

/-- Integer value of an enumerator of `_eButtonState` (`BUTTON_DOWN` is 0). -/
def _eButtonState.toNat : _eButtonState → Nat
  | .BUTTON_DOWN => 0
  | .BUTTON_UP => 1
  | .BUTTON_FALLING => 2
  | .BUTTON_RISING => 3

/-- Events of a button: pressed, not pressed, or nothing. -/
inductive _eEvent where
  | EV_PRESSED
  | EV_NOT_PRESSED
  | EV_NONE
  deriving DecidableEq, Repr

open _eButtonState _eEvent

/-- One row of the transition table. -/
structure _sFsmEntry where
  currentState : _eButtonState
  event : _eEvent
  nextState : _eButtonState
  deriving DecidableEq, Repr

/-- The transition table, row by row as in the source. -/
def fsmTable : List _sFsmEntry :=
  [ ⟨BUTTON_UP, EV_PRESSED, BUTTON_FALLING⟩,
    ⟨BUTTON_FALLING, EV_NOT_PRESSED, BUTTON_UP⟩,
    ⟨BUTTON_FALLING, EV_PRESSED, BUTTON_DOWN⟩,
    ⟨BUTTON_RISING, EV_NOT_PRESSED, BUTTON_UP⟩,
    ⟨BUTTON_DOWN, EV_NOT_PRESSED, BUTTON_RISING⟩,
    ⟨BUTTON_RISING, EV_PRESSED, BUTTON_DOWN⟩ ]

/-- Values of the function-pointer type `callAction`: the null pointer, which
the zero-initialised global `myButtons` holds until `initializeButtons` has
run, and the address of the one function of the program with the signature
`void (void *)`. -/
inductive callAction where
  | null
  | onButtonEvent
  deriving DecidableEq, Repr

/-- The record of one button. `mask` is a `uint16_t`. -/
structure _sButtons where
  currentState : _eButtonState
  event : _eEvent
  action : callAction
  mask : Nat
  deriving DecidableEq, Repr

/-- The mutable state of the program that the button code touches. -/
structure Sys where
  /-- The array `_sButtons myButtons[NUMBUTT]`. -/
  myButtons : Fin NUMBUTT → _sButtons
  /-- The `static uint16_t timeToDebounce` of `updateDebounceFsm`. -/
  timeToDebounce : Nat
  /-- The value currently driven on the output bus `lesdArray`. -/
  lesdArray : Nat
  /-- The global loop counter `uint8_t indexAux`. -/
  indexAux : Nat
  /-- Ghost log of the calls made through `action`, oldest first. -/
  calls : List (Fin NUMBUTT)
  /-- Ghost counter: how often the sampling block of `updateDebounceFsm` ran. -/
  samples : Nat
  /-- Ghost counter: how often the table scan of `updateDebounceFsm` ran. -/
  scans : Nat
  /-- Ghost flag: a call through a null `action` pointer has been made. -/
  fault : Bool

/-- Assignment to one element of the array: `a[i] = b`. -/
def setButton (a : Fin NUMBUTT → _sButtons) (i : Fin NUMBUTT) (b : _sButtons) :
    Fin NUMBUTT → _sButtons :=
  fun j => if j = i then b else a j

/-! ## The output bus and the callback -/

/-- Modelled from the spec: the class `BusOut` of `mbed.h` is not part of the
sources. The output driver writes the logical levels of its lines as a
bit-packed set; `lesdArray` has four lines, so a write keeps the four low bits
of the value and a read returns what was written. -/
def busOutWrite (value : Nat) : Nat :=
  value % 2 ^ 4

/-- The callback `onButtonEvent(void *param)`, with `*param` passed as `index`.
`ledAux` is a `uint16_t`; `~(1 << index)` is taken within its sixteen bits. -/
def onButtonEvent (index : Fin NUMBUTT) (s : Sys) : Sys :=
  let ledAux : Nat := s.lesdArray % 2 ^ 16
  let ledAux : Nat :=
    if s.lesdArray &&& (s.myButtons index).mask ≠ 0 then
      ledAux &&& (65535 ^^^ ((1 <<< index.val) % 2 ^ 16))
    else
      (ledAux ||| (1 <<< index.val)) % 2 ^ 16
  { s with lesdArray := busOutWrite ledAux }

/-- The call `(*action)(&index)` through a function pointer. A call through the
null pointer is undefined behaviour: the embedding raises `fault` and models
nothing else of it. -/
def callAction.call : callAction → Fin NUMBUTT → Sys → Sys
  | .null, _, s => { s with fault := true }
  | .onButtonEvent, index, s => DebounceFsm.onButtonEvent index s

/-! ## `initializeButtons` -/

/-- Body of the loop of `initializeButtons` for the current `indexAux`, followed
by `indexAux++`. -/
def initializeButtonsBody (s : Sys) : Sys :=
  if h : s.indexAux < NUMBUTT then
    { s with
      myButtons := setButton s.myButtons ⟨s.indexAux, h⟩
        { currentState := BUTTON_UP
          event := EV_NONE
          mask := (0 ||| (1 <<< s.indexAux)) % 2 ^ 16
          action := callAction.onButtonEvent }
      indexAux := (s.indexAux + 1) % 2 ^ 8 }
  else s

/-- The loop `for (...; indexAux < NUMBUTT; indexAux++)`, with a bound on the
number of iterations. -/
def initializeButtonsLoop : Nat → Sys → Sys
  | 0, s => s
  | fuel + 1, s =>
    if s.indexAux < NUMBUTT then initializeButtonsLoop fuel (initializeButtonsBody s) else s

/-- The function `initializeButtons(void)`. -/
def initializeButtons (s : Sys) : Sys :=
  initializeButtonsLoop NUMBUTT { s with indexAux := 0 }

/-! ## `updateDebounceFsm` -/

/-- The gate test `(myTimer.read_ms() - timeToDebounce) >= DEBOUNCETIME`: the
`uint16_t` is promoted to `int` and the subtraction is an `int` subtraction. -/
def gateOpen (now : Int) (s : Sys) : Prop :=
  DEBOUNCETIME ≤ now - (s.timeToDebounce : Int)

instance (now : Int) (s : Sys) : Decidable (gateOpen now s) := by
  unfold gateOpen; infer_instance

/-- First block of `updateDebounceFsm`: when the gate is open, store the timer
reading in the `uint16_t` timestamp and derive the event of button `index` from
the input bus. -/
def sampleInput (index : Fin NUMBUTT) (now : Int) (buttonArray : Nat) (s : Sys) : Sys :=
  if gateOpen now s then
    { s with
      samples := s.samples + 1
      timeToDebounce := (now % 2 ^ 16).toNat
      myButtons := setButton s.myButtons index
        { s.myButtons index with
          event := if buttonArray &&& (s.myButtons index).mask ≠ 0 then EV_NOT_PRESSED
                   else EV_PRESSED } }
  else s

/-- Body of the table scan for the current `indexAux`, followed by
`indexAux++`. The row is compared with the record as it is at that moment; on a
match the callback is called first when `indexAux == BUTTON_RISING`, and then
the state is moved to the `nextState` of the row. -/
def scanBody (index : Fin NUMBUTT) (s : Sys) : Sys :=
  match fsmTable[s.indexAux]? with
  | none => s
  | some row =>
    let s1 : Sys :=
      if row.currentState = (s.myButtons index).currentState ∧
          row.event = (s.myButtons index).event then
        let s2 : Sys :=
          if s.indexAux = BUTTON_RISING.toNat then
            (s.myButtons index).action.call index { s with calls := s.calls ++ [index] }
          else s
        { s2 with
          myButtons := setButton s2.myButtons index
            { s2.myButtons index with currentState := row.nextState } }
      else s
    { s1 with indexAux := (s1.indexAux + 1) % 2 ^ 8 }

/-- The loop `for (...; indexAux < sizeof(fsmTable)/sizeof(_sFsmEntry); indexAux++)`,
with a bound on the number of iterations. -/
def scanLoop (index : Fin NUMBUTT) : Nat → Sys → Sys
  | 0, s => s
  | fuel + 1, s =>
    if s.indexAux < fsmTable.length then scanLoop index fuel (scanBody index s) else s

/-- The function `updateDebounceFsm(uint8_t index)`, called when the timer reads
`now` (both reads of the timer in one call return `now`) and the input bus reads
`buttonArray`. The parameter is a valid subscript of `myButtons`. -/
def updateDebounceFsm (index : Fin NUMBUTT) (now : Int) (buttonArray : Nat) (s : Sys) : Sys :=
  let s1 := sampleInput index now buttonArray s
  if (s1.myButtons index).event = EV_NONE then s1
  else
    let s2 := scanLoop index fsmTable.length { s1 with indexAux := 0, scans := s1.scans + 1 }
    { s2 with
      myButtons := setButton s2.myButtons index { s2.myButtons index with event := EV_NONE } }

/-! ## Vocabulary for the properties -/

/-- The event that a call of `updateDebounceFsm` processes: the event stored in
the record of button `index` once the sampling block is through. -/
def processedEvent (index : Fin NUMBUTT) (now : Int) (buttonArray : Nat) (s : Sys) : _eEvent :=
  ((sampleInput index now buttonArray s).myButtons index).event

/-- Successive calls `updateDebounceFsm(index)`, one for each pair of a timer
reading and an input reading. -/
def runUpdates (index : Fin NUMBUTT) : List (Int × Nat) → Sys → Sys
  | [], s => s
  | (now, buttonArray) :: rest, s => runUpdates index rest (updateDebounceFsm index now buttonArray s)

/-- System states that the program can be in after `initializeButtons` and any
number of calls of `updateDebounceFsm`, whatever the timer and the inputs. -/
inductive Reachable : Sys → Prop where
  | init (s0 : Sys) : Reachable (initializeButtons s0)
  | step (index : Fin NUMBUTT) (now : Int) (buttonArray : Nat) (s : Sys) :
      Reachable s → Reachable (updateDebounceFsm index now buttonArray s)

/-- The state of the globals at start-up: zero-initialised statics, all outputs
low, empty ghost log and counters, and the given button records. -/
def powerOn (buttons : Fin NUMBUTT → _sButtons) : Sys :=
  { myButtons := buttons, timeToDebounce := 0, lesdArray := 0, indexAux := 0, calls := [],
    samples := 0, scans := 0, fault := false }

/-- A zero-initialised button record: the first enumerators, a null function
pointer and an empty mask. -/
def zeroButton : _sButtons :=
  { currentState := BUTTON_DOWN, event := EV_PRESSED, action := callAction.null,
    mask := 0 }

/-- The system right after `initializeButtons()` at start-up. -/
def startUp : Sys :=
  initializeButtons (powerOn fun _ => zeroButton)

/-- The state in which one complete table scan leaves a button that entered it
in state `st` with event `ev`. Not part of the program: the closed form of the
loop, proved equal to it in `scanLoop_eq`. -/
def scanOutcome : _eButtonState → _eEvent → _eButtonState
  | BUTTON_UP, EV_PRESSED => BUTTON_DOWN
  | BUTTON_FALLING, EV_NOT_PRESSED => BUTTON_UP
  | BUTTON_FALLING, EV_PRESSED => BUTTON_DOWN
  | BUTTON_RISING, EV_NOT_PRESSED => BUTTON_UP
  | BUTTON_DOWN, EV_NOT_PRESSED => BUTTON_RISING
  | BUTTON_RISING, EV_PRESSED => BUTTON_DOWN
  | st, _ => st

/-- The record that `initializeButtons` writes into slot `i`. Not part of the
program: the closed form of the loop body, see `initializeButtons_eq`. -/
def initialButton (i : Fin NUMBUTT) : _sButtons :=
  { currentState := BUTTON_UP, event := EV_NONE, action := callAction.onButtonEvent,
    mask := 1 <<< i.val }

/-! ## `main` -/

/-- The state of `main`: the globals of `Sys`, the local `uint16_t hearbeat` and
the level of the output line `hearbeatLed` (0 or 1). -/
structure MainState where
  sys : Sys
  hearbeat : Nat
  hearbeatLed : Nat

/-- The heartbeat block at the head of the loop of `main`, with both reads of
the timer returning `now`: the test is an `int` comparison against the promoted
`uint16_t`, the store reduces the reading modulo `2 ^ 16`, and
`hearbeatLed = !hearbeatLed` inverts the line. -/
def mainHeartbeat (now : Int) (m : MainState) : MainState :=
  if HEARBEATTIME ≤ now - (m.hearbeat : Int) then
    { m with
      hearbeat := (now % 2 ^ 16).toNat
      hearbeatLed := if m.hearbeatLed = 0 then 1 else 0 }
  else m

/-- The loop `for (uint8_t index = 0; index < NUMBUTT; index++)` of `main`, with
a bound on the number of iterations; `reads index` is what the timer and the
input bus read during the call for button `index`. -/
def mainButtonsLoop (reads : Fin NUMBUTT → Int × Nat) : Nat → Nat → Sys → Sys
  | 0, _, s => s
  | fuel + 1, index, s =>
    if h : index < NUMBUTT then
      mainButtonsLoop reads fuel ((index + 1) % 2 ^ 8)
        (updateDebounceFsm ⟨index, h⟩ (reads ⟨index, h⟩).1 (reads ⟨index, h⟩).2 s)
    else s

/-- One iteration of the `while (true)` loop of `main`; `now` is the timer
reading seen by the heartbeat block. -/
def mainLoopBody (now : Int) (reads : Fin NUMBUTT → Int × Nat) (m : MainState) : MainState :=
  let m1 := mainHeartbeat now m
  { m1 with sys := mainButtonsLoop reads NUMBUTT 0 m1.sys }

/-- The statements of `main` before the loop: `hearbeatLed = 0`,
`initializeButtons()`, `hearbeat = 0`. -/
def mainStart (s : Sys) : MainState :=
  { sys := initializeButtons s, hearbeat := 0, hearbeatLed := 0 }

/-- Successive iterations of the loop of `main`, one for each timer reading of
the heartbeat block; the four calls of an iteration see the same reading and
the input `buttonArray`. -/
def runMain (buttonArray : Nat) : List Int → MainState → MainState
  | [], m => m
  | now :: rest, m => runMain buttonArray rest (mainLoopBody now (fun _ => (now, buttonArray)) m)

/-- Successive calls of `updateDebounceFsm`, each with its own button index,
timer reading and input reading. -/
def runCalls : List (Fin NUMBUTT × Int × Nat) → Sys → Sys
  | [], s => s
  | (index, now, buttonArray) :: rest, s =>
    runCalls rest (updateDebounceFsm index now buttonArray s)

/-- Along the calls of a run, every call for button `i` processes an event that
`ok` accepts. -/
def ProcessesOnly (i : Fin NUMBUTT) (ok : _eEvent → Bool) :
    List (Fin NUMBUTT × Int × Nat) → Sys → Prop
  | [], _ => True
  | (index, now, buttonArray) :: rest, s =>
    (index = i → ok (processedEvent index now buttonArray s) = true) ∧
      ProcessesOnly i ok rest (updateDebounceFsm index now buttonArray s)

instance (i : Fin NUMBUTT) (ok : _eEvent → Bool) (cs : List (Fin NUMBUTT × Int × Nat))
    (s : Sys) : Decidable (ProcessesOnly i ok cs s) := by
  induction cs generalizing s with
  | nil => unfold ProcessesOnly; infer_instance
  | cons c rest ih =>
    obtain ⟨index, now, buttonArray⟩ := c
    unfold ProcessesOnly
    exact @instDecidableAnd _ _ _ (ih _)

/-! ## Basic facts about array assignment -/

theorem setButton_same (a : Fin NUMBUTT → _sButtons) (i : Fin NUMBUTT) (b : _sButtons) :
    setButton a i b i = b := by
  simp [setButton]

theorem setButton_other (a : Fin NUMBUTT → _sButtons) (i j : Fin NUMBUTT) (b : _sButtons)
    (h : j ≠ i) : setButton a i b j = a j := by
  simp [setButton, h]

theorem setButton_self (a : Fin NUMBUTT → _sButtons) (i : Fin NUMBUTT) :
    setButton a i (a i) = a := by
  funext j
  by_cases h : j = i <;> simp [setButton, h]

theorem setButton_setButton (a : Fin NUMBUTT → _sButtons) (i : Fin NUMBUTT) (b c : _sButtons) :
    setButton (setButton a i b) i c = setButton a i c := by
  funext j
  by_cases h : j = i <;> simp [setButton, h]

/-! ## Closed forms of the loops -/

/-- The table scan in closed form: the callback is called (and logged) exactly
when the button enters the scan in `BUTTON_RISING` with `EV_NOT_PRESSED`, the
state ends as `scanOutcome` says, and the loop leaves `indexAux` at the table
length, i.e. it ran to its exit condition. -/
theorem scanLoop_eq (index : Fin NUMBUTT) (s : Sys) :
    scanLoop index fsmTable.length { s with indexAux := 0 } =
      { (if (s.myButtons index).currentState = BUTTON_RISING ∧
              (s.myButtons index).event = EV_NOT_PRESSED then
            (s.myButtons index).action.call index { s with calls := s.calls ++ [index] }
          else s) with
        indexAux := 6
        myButtons := setButton s.myButtons index
          { s.myButtons index with
            currentState := scanOutcome (s.myButtons index).currentState
              (s.myButtons index).event } } := by
  rcases s with ⟨btns, ts, leds, idx, calls, samples, scans, fault⟩
  have hself : btns = setButton btns index (btns index) := (setButton_self btns index).symm
  generalize hb : btns index = b at hself
  rcases b with ⟨st, ev, act, mask⟩
  cases act <;> cases st <;> cases ev <;>
    simp [scanLoop, scanBody, fsmTable, hb, setButton_same, setButton_setButton, scanOutcome,
      _eButtonState.toNat, callAction.call, onButtonEvent] <;> exact hself

/-- The initialisation loop in closed form. -/
theorem initializeButtons_eq (s : Sys) :
    initializeButtons s = { s with myButtons := initialButton, indexAux := 4 } := by
  rcases s with ⟨btns, ts, leds, idx, calls, samples, scans, fault⟩
  simp [initializeButtons, initializeButtonsLoop, initializeButtonsBody, NUMBUTT]
  funext j
  fin_cases j <;> rfl

/-! ## The call through the function pointer -/

theorem call_onButtonEvent (index : Fin NUMBUTT) (s : Sys) :
    callAction.onButtonEvent.call index s = onButtonEvent index s := rfl

theorem call_myButtons (a : callAction) (index : Fin NUMBUTT) (s : Sys) :
    (a.call index s).myButtons = s.myButtons := by
  cases a <;> rfl

theorem call_calls (a : callAction) (index : Fin NUMBUTT) (s : Sys) :
    (a.call index s).calls = s.calls := by
  cases a <;> rfl

theorem call_timeToDebounce (a : callAction) (index : Fin NUMBUTT) (s : Sys) :
    (a.call index s).timeToDebounce = s.timeToDebounce := by
  cases a <;> rfl

theorem call_samples (a : callAction) (index : Fin NUMBUTT) (s : Sys) :
    (a.call index s).samples = s.samples := by
  cases a <;> rfl

theorem call_scans (a : callAction) (index : Fin NUMBUTT) (s : Sys) :
    (a.call index s).scans = s.scans := by
  cases a <;> rfl

/-- What a call writes depends on the output bus and on the mask of the button
only. -/
theorem call_lesdArray_congr (a : callAction) (index : Fin NUMBUTT) (s s2 : Sys)
    (hl : s2.lesdArray = s.lesdArray)
    (hm : (s2.myButtons index).mask = (s.myButtons index).mask) :
    (a.call index s2).lesdArray = (a.call index s).lesdArray := by
  cases a
  · exact hl
  · simp only [callAction.call, onButtonEvent, hl, hm]

/-! ## The sampling block -/

theorem sampleInput_of_closed (index : Fin NUMBUTT) (now : Int) (buttonArray : Nat) (s : Sys)
    (h : ¬ gateOpen now s) : sampleInput index now buttonArray s = s := by
  simp [sampleInput, h]

theorem sampleInput_currentState (index j : Fin NUMBUTT) (now : Int) (buttonArray : Nat)
    (s : Sys) :
    ((sampleInput index now buttonArray s).myButtons j).currentState =
      (s.myButtons j).currentState := by
  unfold sampleInput
  by_cases hg : gateOpen now s
  · by_cases hj : j = index
    · subst hj; simp [hg, setButton_same]
    · simp [hg, setButton_other _ _ _ _ hj]
  · simp [hg]

theorem processedEvent_of_open (index : Fin NUMBUTT) (now : Int) (buttonArray : Nat) (s : Sys)
    (h : gateOpen now s) :
    processedEvent index now buttonArray s =
      if buttonArray &&& (s.myButtons index).mask ≠ 0 then EV_NOT_PRESSED else EV_PRESSED := by
  simp [processedEvent, sampleInput, h, setButton_same]

theorem processedEvent_of_closed (index : Fin NUMBUTT) (now : Int) (buttonArray : Nat) (s : Sys)
    (h : ¬ gateOpen now s) :
    processedEvent index now buttonArray s = (s.myButtons index).event := by
  simp [processedEvent, sampleInput, h]

theorem processedEvent_eq_none_iff (index : Fin NUMBUTT) (now : Int) (buttonArray : Nat)
    (s : Sys) :
    processedEvent index now buttonArray s = EV_NONE ↔
      ¬ gateOpen now s ∧ (s.myButtons index).event = EV_NONE := by
  by_cases hg : gateOpen now s
  · rw [processedEvent_of_open _ _ _ _ hg]
    by_cases hb : buttonArray &&& (s.myButtons index).mask ≠ 0 <;> simp [hg, hb]
  · rw [processedEvent_of_closed _ _ _ _ hg]
    simp [hg]

theorem updateDebounceFsm_of_none (index : Fin NUMBUTT) (now : Int) (buttonArray : Nat) (s : Sys)
    (h : processedEvent index now buttonArray s = EV_NONE) :
    updateDebounceFsm index now buttonArray s = s := by
  have hc := (processedEvent_eq_none_iff index now buttonArray s).1 h
  unfold processedEvent at h
  simp only [updateDebounceFsm, h, if_true]
  exact sampleInput_of_closed index now buttonArray s hc.1

theorem updateDebounceFsm_of_event (index : Fin NUMBUTT) (now : Int) (buttonArray : Nat)
    (s : Sys) (h : processedEvent index now buttonArray s ≠ EV_NONE) :
    updateDebounceFsm index now buttonArray s =
      { (if (s.myButtons index).currentState = BUTTON_RISING ∧
              processedEvent index now buttonArray s = EV_NOT_PRESSED then
            (s.myButtons index).action.call index
              { sampleInput index now buttonArray s with
                calls := s.calls ++ [index] }
          else sampleInput index now buttonArray s) with
        indexAux := 6
        scans := s.scans + 1
        myButtons := setButton (sampleInput index now buttonArray s).myButtons index
          { (sampleInput index now buttonArray s).myButtons index with
            currentState := scanOutcome (s.myButtons index).currentState
              (processedEvent index now buttonArray s)
            event := EV_NONE } } := by
  have hc : (sampleInput index now buttonArray s).calls = s.calls := by
    unfold sampleInput; split <;> rfl
  have hs : (sampleInput index now buttonArray s).scans = s.scans := by
    unfold sampleInput; split <;> rfl
  have key := scanLoop_eq index
    { sampleInput index now buttonArray s with
      scans := (sampleInput index now buttonArray s).scans + 1 }
  unfold processedEvent at h ⊢
  simp only [updateDebounceFsm, h, if_false]
  have ha : ((sampleInput index now buttonArray s).myButtons index).action =
      (s.myButtons index).action := by
    unfold sampleInput
    split
    · simp [setButton_same]
    · rfl
  simp only [] at key
  rw [key]
  simp only [sampleInput_currentState, hc, hs, ha, setButton_setButton, setButton_same]
  cases (s.myButtons index).action <;>
    split <;> simp [callAction.call, onButtonEvent, setButton_setButton, setButton_same, hc, hs]

/-! ## Bit arithmetic of masks and outputs -/

theorem and_one_shiftLeft_ne_zero_iff (b i : Nat) : b &&& (1 <<< i) ≠ 0 ↔ b.testBit i = true := by
  rw [Nat.one_shiftLeft]
  constructor
  · intro h
    by_contra hb
    apply h
    apply Nat.eq_of_testBit_eq
    intro j
    simp only [Nat.testBit_and, Nat.testBit_two_pow, Nat.zero_testBit]
    by_cases hij : i = j
    · subst hij; simp [hb]
    · simp [hij]
  · intro hb h
    have := congrArg (fun n => n.testBit i) h
    simp [Nat.testBit_two_pow, hb] at this

theorem toggle_bit (L : Nat) (hL : L < 16) (i : Fin NUMBUTT) :
    busOutWrite
        (if L &&& (1 <<< i.val) ≠ 0 then (L % 2 ^ 16) &&& (65535 ^^^ ((1 <<< i.val) % 2 ^ 16))
         else ((L % 2 ^ 16) ||| (1 <<< i.val)) % 2 ^ 16) = L ^^^ (1 <<< i.val) := by
  revert L i
  decide

/-! ## What the sampling block leaves alone -/

theorem scanOutcome_none (st : _eButtonState) : scanOutcome st EV_NONE = st := by
  cases st <;> rfl

theorem sampleInput_other (index j : Fin NUMBUTT) (now : Int) (buttonArray : Nat) (s : Sys)
    (hj : j ≠ index) :
    (sampleInput index now buttonArray s).myButtons j = s.myButtons j := by
  unfold sampleInput
  split
  · exact setButton_other _ _ _ _ hj
  · rfl

theorem sampleInput_mask (index j : Fin NUMBUTT) (now : Int) (buttonArray : Nat) (s : Sys) :
    ((sampleInput index now buttonArray s).myButtons j).mask = (s.myButtons j).mask := by
  by_cases hj : j = index
  · subst hj
    unfold sampleInput
    split
    · simp [setButton_same]
    · rfl
  · rw [sampleInput_other _ _ _ _ _ hj]

theorem sampleInput_action (index j : Fin NUMBUTT) (now : Int) (buttonArray : Nat) (s : Sys) :
    ((sampleInput index now buttonArray s).myButtons j).action = (s.myButtons j).action := by
  by_cases hj : j = index
  · subst hj
    unfold sampleInput
    split
    · simp [setButton_same]
    · rfl
  · rw [sampleInput_other _ _ _ _ _ hj]

theorem sampleInput_lesdArray (index : Fin NUMBUTT) (now : Int) (buttonArray : Nat) (s : Sys) :
    (sampleInput index now buttonArray s).lesdArray = s.lesdArray := by
  unfold sampleInput; split <;> rfl

theorem sampleInput_calls (index : Fin NUMBUTT) (now : Int) (buttonArray : Nat) (s : Sys) :
    (sampleInput index now buttonArray s).calls = s.calls := by
  unfold sampleInput; split <;> rfl

theorem sampleInput_timeToDebounce (index : Fin NUMBUTT) (now : Int) (buttonArray : Nat)
    (s : Sys) :
    (sampleInput index now buttonArray s).timeToDebounce =
      if gateOpen now s then (now % 2 ^ 16).toNat else s.timeToDebounce := by
  unfold sampleInput; split <;> rfl

theorem sampleInput_samples (index : Fin NUMBUTT) (now : Int) (buttonArray : Nat)
    (s : Sys) :
    (sampleInput index now buttonArray s).samples =
      if gateOpen now s then s.samples + 1 else s.samples := by
  unfold sampleInput; split <;> rfl

/-- The callback only writes the output bus. -/
theorem onButtonEvent_eq (index : Fin NUMBUTT) (s : Sys) :
    onButtonEvent index s = { s with lesdArray := (onButtonEvent index s).lesdArray } := rfl

/-! ## What one call of `updateDebounceFsm` does to each part of the state -/

theorem updateDebounceFsm_currentState (index : Fin NUMBUTT) (now : Int) (buttonArray : Nat)
    (s : Sys) :
    ((updateDebounceFsm index now buttonArray s).myButtons index).currentState =
      scanOutcome (s.myButtons index).currentState (processedEvent index now buttonArray s) := by
  by_cases h : processedEvent index now buttonArray s = EV_NONE
  · rw [updateDebounceFsm_of_none _ _ _ _ h, h, scanOutcome_none]
  · rw [updateDebounceFsm_of_event _ _ _ _ h]
    simp [setButton_same]

theorem updateDebounceFsm_event (index : Fin NUMBUTT) (now : Int) (buttonArray : Nat)
    (s : Sys) :
    ((updateDebounceFsm index now buttonArray s).myButtons index).event = EV_NONE := by
  by_cases h : processedEvent index now buttonArray s = EV_NONE
  · rw [updateDebounceFsm_of_none _ _ _ _ h]
    exact ((processedEvent_eq_none_iff _ _ _ _).1 h).2
  · rw [updateDebounceFsm_of_event _ _ _ _ h]
    simp [setButton_same]

theorem updateDebounceFsm_other (index j : Fin NUMBUTT) (now : Int) (buttonArray : Nat)
    (s : Sys) (hj : j ≠ index) :
    (updateDebounceFsm index now buttonArray s).myButtons j = s.myButtons j := by
  by_cases h : processedEvent index now buttonArray s = EV_NONE
  · rw [updateDebounceFsm_of_none _ _ _ _ h]
  · rw [updateDebounceFsm_of_event _ _ _ _ h]
    simp [setButton_other _ _ _ _ hj, sampleInput_other _ _ _ _ _ hj]

theorem updateDebounceFsm_mask (index j : Fin NUMBUTT) (now : Int) (buttonArray : Nat)
    (s : Sys) :
    ((updateDebounceFsm index now buttonArray s).myButtons j).mask = (s.myButtons j).mask := by
  by_cases hj : j = index
  · subst hj
    by_cases h : processedEvent j now buttonArray s = EV_NONE
    · rw [updateDebounceFsm_of_none _ _ _ _ h]
    · rw [updateDebounceFsm_of_event _ _ _ _ h]
      simp [setButton_same, sampleInput_mask]
  · rw [updateDebounceFsm_other _ _ _ _ _ hj]

theorem updateDebounceFsm_action (index j : Fin NUMBUTT) (now : Int) (buttonArray : Nat)
    (s : Sys) :
    ((updateDebounceFsm index now buttonArray s).myButtons j).action =
      (s.myButtons j).action := by
  by_cases hj : j = index
  · subst hj
    by_cases h : processedEvent j now buttonArray s = EV_NONE
    · rw [updateDebounceFsm_of_none _ _ _ _ h]
    · rw [updateDebounceFsm_of_event _ _ _ _ h]
      simp [setButton_same, sampleInput_action]
  · rw [updateDebounceFsm_other _ _ _ _ _ hj]

theorem updateDebounceFsm_calls (index : Fin NUMBUTT) (now : Int) (buttonArray : Nat)
    (s : Sys) :
    (updateDebounceFsm index now buttonArray s).calls =
      if (s.myButtons index).currentState = BUTTON_RISING ∧
          processedEvent index now buttonArray s = EV_NOT_PRESSED then s.calls ++ [index]
      else s.calls := by
  by_cases h : processedEvent index now buttonArray s = EV_NONE
  · rw [updateDebounceFsm_of_none _ _ _ _ h, h]
    simp
  · rw [updateDebounceFsm_of_event _ _ _ _ h]
    split <;> simp [call_calls, sampleInput_calls]

theorem updateDebounceFsm_lesdArray (index : Fin NUMBUTT) (now : Int) (buttonArray : Nat)
    (s : Sys) :
    (updateDebounceFsm index now buttonArray s).lesdArray =
      if (s.myButtons index).currentState = BUTTON_RISING ∧
          processedEvent index now buttonArray s = EV_NOT_PRESSED then
        ((s.myButtons index).action.call index s).lesdArray
      else s.lesdArray := by
  by_cases h : processedEvent index now buttonArray s = EV_NONE
  · rw [updateDebounceFsm_of_none _ _ _ _ h, h]
    simp
  · rw [updateDebounceFsm_of_event _ _ _ _ h]
    split
    · exact call_lesdArray_congr _ index s _ (sampleInput_lesdArray index now buttonArray s)
        (sampleInput_mask index index now buttonArray s)
    · exact sampleInput_lesdArray index now buttonArray s

theorem updateDebounceFsm_timeToDebounce (index : Fin NUMBUTT) (now : Int) (buttonArray : Nat)
    (s : Sys) :
    (updateDebounceFsm index now buttonArray s).timeToDebounce =
      if gateOpen now s then (now % 2 ^ 16).toNat else s.timeToDebounce := by
  by_cases h : processedEvent index now buttonArray s = EV_NONE
  · rw [updateDebounceFsm_of_none _ _ _ _ h]
    simp [((processedEvent_eq_none_iff _ _ _ _).1 h).1]
  · rw [updateDebounceFsm_of_event _ _ _ _ h]
    split <;> simp [call_timeToDebounce, sampleInput_timeToDebounce]

theorem updateDebounceFsm_samples (index : Fin NUMBUTT) (now : Int) (buttonArray : Nat)
    (s : Sys) :
    (updateDebounceFsm index now buttonArray s).samples =
      if gateOpen now s then s.samples + 1 else s.samples := by
  by_cases h : processedEvent index now buttonArray s = EV_NONE
  · rw [updateDebounceFsm_of_none _ _ _ _ h]
    simp [((processedEvent_eq_none_iff _ _ _ _).1 h).1]
  · rw [updateDebounceFsm_of_event _ _ _ _ h]
    split <;> simp [call_samples, sampleInput_samples]

theorem updateDebounceFsm_scans (index : Fin NUMBUTT) (now : Int) (buttonArray : Nat)
    (s : Sys) :
    (updateDebounceFsm index now buttonArray s).scans =
      if processedEvent index now buttonArray s = EV_NONE then s.scans else s.scans + 1 := by
  by_cases h : processedEvent index now buttonArray s = EV_NONE
  · rw [updateDebounceFsm_of_none _ _ _ _ h]
    simp [h]
  · rw [updateDebounceFsm_of_event _ _ _ _ h]
    simp [h]

/-- The callback on a record whose mask selects bit `index`: the output bit is
inverted. -/
theorem onButtonEvent_lesdArray (index : Fin NUMBUTT) (s : Sys)
    (hm : (s.myButtons index).mask = 1 <<< index.val) (hL : s.lesdArray < 16) :
    (onButtonEvent index s).lesdArray = s.lesdArray ^^^ (1 <<< index.val) := by
  simp only [onButtonEvent, hm]
  exact toggle_bit s.lesdArray hL index

theorem xor_one_shiftLeft_lt (L : Nat) (hL : L < 16) (i : Fin NUMBUTT) :
    L ^^^ (1 <<< i.val) < 16 := by
  revert L i
  decide

/-! ## Invariants of the reachable states -/

theorem initializeButtons_myButtons (s0 : Sys) (j : Fin NUMBUTT) :
    (initializeButtons s0).myButtons j = initialButton j := by
  rw [initializeButtons_eq]

theorem reachable_mask (s : Sys) (h : Reachable s) (j : Fin NUMBUTT) :
    (s.myButtons j).mask = 1 <<< j.val := by
  induction h with
  | init s0 => rw [initializeButtons_myButtons]; rfl
  | step index now buttonArray s _ ih => rw [updateDebounceFsm_mask]; exact ih

/-- After `initializeButtons` no record holds a null pointer any more. -/
theorem reachable_action (s : Sys) (h : Reachable s) (j : Fin NUMBUTT) :
    (s.myButtons j).action = callAction.onButtonEvent := by
  induction h with
  | init s0 => rw [initializeButtons_myButtons]; rfl
  | step index now buttonArray s _ ih => rw [updateDebounceFsm_action]; exact ih

theorem reachable_event (s : Sys) (h : Reachable s) (j : Fin NUMBUTT) :
    (s.myButtons j).event = EV_NONE := by
  induction h with
  | init s0 => rw [initializeButtons_myButtons]; rfl
  | step index now buttonArray s _ ih =>
    by_cases hj : j = index
    · subst hj; exact updateDebounceFsm_event _ _ _ _
    · rw [updateDebounceFsm_other _ _ _ _ _ hj]; exact ih

/-- The system at start-up is reachable. -/
theorem reachable_startUp : Reachable startUp :=
  Reachable.init _

theorem initializeButtons_calls (s0 : Sys) : (initializeButtons s0).calls = s0.calls := by
  rw [initializeButtons_eq]

theorem initializeButtons_lesdArray (s0 : Sys) :
    (initializeButtons s0).lesdArray = s0.lesdArray := by
  rw [initializeButtons_eq]

theorem testBit_xor_one_shiftLeft (L i k : Nat) :
    (L ^^^ (1 <<< i)).testBit k = Bool.xor (L.testBit k) (decide (k = i)) := by
  rw [Nat.one_shiftLeft, Nat.testBit_xor, Nat.testBit_two_pow]
  by_cases h : k = i
  · subst h; simp
  · have h2 : ¬ i = k := fun e => h e.symm
    simp [h, h2]

/-! ## Properties of the specification, C1 to C10 -/

/-- C1: one call of `updateDebounceFsm(index)` calls the callback of the button
if and only if the button is in `BUTTON_RISING` and the event processed by the
call is `EV_NOT_PRESSED`. In that case the log of calls grows by exactly one
entry, `index`; in every other case, (Up, Pressed) and (Falling, Pressed)
included, it is unchanged. -/
theorem callback_iff_rising_not_pressed (index : Fin NUMBUTT) (now : Int) (buttonArray : Nat)
    (s : Sys) :
    ((updateDebounceFsm index now buttonArray s).calls =
        if (s.myButtons index).currentState = BUTTON_RISING ∧
            processedEvent index now buttonArray s = EV_NOT_PRESSED then s.calls ++ [index]
        else s.calls) ∧
      ((updateDebounceFsm index now buttonArray s).calls ≠ s.calls ↔
        (s.myButtons index).currentState = BUTTON_RISING ∧
          processedEvent index now buttonArray s = EV_NOT_PRESSED) := by
  refine ⟨updateDebounceFsm_calls index now buttonArray s, ?_⟩
  rw [updateDebounceFsm_calls]
  split <;> simp_all

/-- C2: the button 0 of the system at start-up is in `BUTTON_UP`; a call at
40 ms with input bits `0b1110` samples `EV_PRESSED`. The first row of
`fsmTable` documents `BUTTON_FALLING` as the next state, but the call leaves
the button in `BUTTON_DOWN`. -/
theorem up_pressed_ends_in_down :
    (startUp.myButtons 0).currentState = BUTTON_UP ∧
      processedEvent 0 40 14 startUp = EV_PRESSED ∧
      fsmTable[0]? = some ⟨BUTTON_UP, EV_PRESSED, BUTTON_FALLING⟩ ∧
      ((updateDebounceFsm 0 40 14 startUp).myButtons 0).currentState = BUTTON_DOWN := by
  decide

/-- Every row of the table but the first is honoured by a complete scan. -/
theorem scanOutcome_rows :
    ∀ row ∈ fsmTable.tail, scanOutcome row.currentState row.event = row.nextState := by
  decide

/-- C3: starting from `initializeButtons`, four successive calls for button
`index` that process `EV_PRESSED`, `EV_PRESSED`, `EV_NOT_PRESSED`,
`EV_NOT_PRESSED` call the callback exactly once in total, in the fourth call
and with `index`; afterwards the button is in `BUTTON_UP` and the output
differs from the initial four-bit output exactly in bit `index`. -/
theorem press_release_cycle_fires_once (index : Fin NUMBUTT) (s0 s1 s2 s3 s4 : Sys)
    (t1 t2 t3 t4 : Int) (b1 b2 b3 b4 : Nat)
    (hL : s0.lesdArray < 16)
    (e1 : s1 = updateDebounceFsm index t1 b1 (initializeButtons s0))
    (e2 : s2 = updateDebounceFsm index t2 b2 s1)
    (e3 : s3 = updateDebounceFsm index t3 b3 s2)
    (e4 : s4 = updateDebounceFsm index t4 b4 s3)
    (p1 : processedEvent index t1 b1 (initializeButtons s0) = EV_PRESSED)
    (p2 : processedEvent index t2 b2 s1 = EV_PRESSED)
    (p3 : processedEvent index t3 b3 s2 = EV_NOT_PRESSED)
    (p4 : processedEvent index t4 b4 s3 = EV_NOT_PRESSED) :
    s1.calls = s0.calls ∧ s2.calls = s0.calls ∧ s3.calls = s0.calls ∧
      s4.calls = s0.calls ++ [index] ∧
      (s4.myButtons index).currentState = BUTTON_UP ∧
      s4.lesdArray = s0.lesdArray ^^^ (1 <<< index.val) ∧
      ∀ k, s4.lesdArray.testBit k =
        Bool.xor (s0.lesdArray.testBit k) (decide (k = index.val)) := by
  have hi : (initializeButtons s0).myButtons index = initialButton index :=
    initializeButtons_myButtons s0 index
  have st1 : (s1.myButtons index).currentState = BUTTON_DOWN := by
    rw [e1, updateDebounceFsm_currentState, p1, hi]; rfl
  have st2 : (s2.myButtons index).currentState = BUTTON_DOWN := by
    rw [e2, updateDebounceFsm_currentState, p2, st1]; rfl
  have st3 : (s3.myButtons index).currentState = BUTTON_RISING := by
    rw [e3, updateDebounceFsm_currentState, p3, st2]; rfl
  have st4 : (s4.myButtons index).currentState = BUTTON_UP := by
    rw [e4, updateDebounceFsm_currentState, p4, st3]; rfl
  have c1 : s1.calls = s0.calls := by
    rw [e1, updateDebounceFsm_calls, hi, initializeButtons_calls]; simp [initialButton]
  have c2 : s2.calls = s0.calls := by
    rw [e2, updateDebounceFsm_calls, st1, c1]; simp
  have c3 : s3.calls = s0.calls := by
    rw [e3, updateDebounceFsm_calls, st2, c2]; simp
  have c4 : s4.calls = s0.calls ++ [index] := by
    rw [e4, updateDebounceFsm_calls, st3, c3, p4]; simp
  have l1 : s1.lesdArray = s0.lesdArray := by
    rw [e1, updateDebounceFsm_lesdArray, hi, initializeButtons_lesdArray]; simp [initialButton]
  have l2 : s2.lesdArray = s0.lesdArray := by
    rw [e2, updateDebounceFsm_lesdArray, st1, l1]; simp
  have l3 : s3.lesdArray = s0.lesdArray := by
    rw [e3, updateDebounceFsm_lesdArray, st2, l2]; simp
  have m3 : (s3.myButtons index).mask = 1 <<< index.val := by
    rw [e3, updateDebounceFsm_mask, e2, updateDebounceFsm_mask, e1, updateDebounceFsm_mask, hi]
    rfl
  have a3 : (s3.myButtons index).action = callAction.onButtonEvent := by
    rw [e3, updateDebounceFsm_action, e2, updateDebounceFsm_action, e1,
      updateDebounceFsm_action, hi]
    rfl
  have l4 : s4.lesdArray = s0.lesdArray ^^^ (1 <<< index.val) := by
    rw [e4, updateDebounceFsm_lesdArray, st3, p4, a3, call_onButtonEvent,
      onButtonEvent_lesdArray index s3 m3 (by rw [l3]; exact hL), l3]
    simp
  refine ⟨c1, c2, c3, c4, st4, l4, fun k => ?_⟩
  rw [l4, testBit_xor_one_shiftLeft]

/-- A concrete cycle at start-up on button 0: samples at 40, 80, 120 and 160 ms
with inputs `0b1110`, `0b1110`, `0b1111`, `0b1111`. -/
theorem press_release_cycle_fires_once_witness :
    (powerOn fun _ => zeroButton).lesdArray < 16 ∧
      processedEvent 0 40 14 startUp = EV_PRESSED ∧
      processedEvent 0 80 14 (runUpdates 0 [(40, 14)] startUp) = EV_PRESSED ∧
      processedEvent 0 120 15 (runUpdates 0 [(40, 14), (80, 14)] startUp) = EV_NOT_PRESSED ∧
      processedEvent 0 160 15 (runUpdates 0 [(40, 14), (80, 14), (120, 15)] startUp)
        = EV_NOT_PRESSED ∧
      (runUpdates 0 [(40, 14), (80, 14), (120, 15), (160, 15)] startUp).calls = [0] ∧
      ((runUpdates 0 [(40, 14), (80, 14), (120, 15), (160, 15)] startUp).myButtons 0).currentState
        = BUTTON_UP ∧
      (runUpdates 0 [(40, 14), (80, 14), (120, 15), (160, 15)] startUp).lesdArray = 1 := by
  have h := press_release_cycle_fires_once 0 (powerOn fun _ => zeroButton)
    (runUpdates 0 [(40, 14)] startUp) (runUpdates 0 [(40, 14), (80, 14)] startUp)
    (runUpdates 0 [(40, 14), (80, 14), (120, 15)] startUp)
    (runUpdates 0 [(40, 14), (80, 14), (120, 15), (160, 15)] startUp)
    40 80 120 160 14 14 15 15 (by decide) rfl rfl rfl rfl (by decide) (by decide) (by decide)
    (by decide)
  exact ⟨by decide, by decide, by decide, by decide, by decide, h.2.2.2.1, h.2.2.2.2.1,
    h.2.2.2.2.2.1⟩

/-- C4: at start-up, button 0 processes one `EV_PRESSED` sample (40 ms, input
`0b1110`) followed by two `EV_NOT_PRESSED` samples (80 ms and 120 ms, input
`0b1111`). The press was never confirmed by a second `EV_PRESSED` sample, yet
the third call calls the callback and output bit 0 is inverted. -/
theorem unconfirmed_press_fires_callback :
    (startUp.myButtons 0).currentState = BUTTON_UP ∧
      processedEvent 0 40 14 startUp = EV_PRESSED ∧
      processedEvent 0 80 15 (runUpdates 0 [(40, 14)] startUp) = EV_NOT_PRESSED ∧
      processedEvent 0 120 15 (runUpdates 0 [(40, 14), (80, 15)] startUp) = EV_NOT_PRESSED ∧
      (runUpdates 0 [(40, 14), (80, 15)] startUp).calls = [] ∧
      (runUpdates 0 [(40, 14), (80, 15), (120, 15)] startUp).calls = [0] ∧
      startUp.lesdArray = 0 ∧
      (runUpdates 0 [(40, 14), (80, 15), (120, 15)] startUp).lesdArray = 1 := by
  decide

/-- C5: at start-up a call for button 0 at 70000 ms opens the gate and samples;
the stored timestamp is 70000 mod 65536 = 4464. A call for button 1 only 10 ms
later, at 70010 ms, finds the gate open again: it samples the input
(`EV_PRESSED` from input `0b1101`), moves button 1 out of `BUTTON_UP` and
overwrites the timestamp. -/
theorem gate_reopens_after_timer_passes_65535 :
    gateOpen 70000 startUp ∧
      (updateDebounceFsm 0 70000 15 startUp).timeToDebounce = 4464 ∧
      gateOpen 70010 (updateDebounceFsm 0 70000 15 startUp) ∧
      processedEvent 1 70010 13 (updateDebounceFsm 0 70000 15 startUp) = EV_PRESSED ∧
      (((updateDebounceFsm 0 70000 15 startUp).myButtons 1).currentState = BUTTON_UP) ∧
      ((updateDebounceFsm 1 70010 13 (updateDebounceFsm 0 70000 15 startUp)).myButtons 1).currentState
        = BUTTON_DOWN ∧
      (updateDebounceFsm 1 70010 13 (updateDebounceFsm 0 70000 15 startUp)).timeToDebounce = 4474 ∧
      (updateDebounceFsm 1 70010 13 (updateDebounceFsm 0 70000 15 startUp)).samples = 2 := by
  decide

/-- While the timer reads less than 65536 the gate works as intended: a call
within 40 ms of a sampling call takes no sample. -/
theorem gate_closed_within_interval (i : Fin NUMBUTT) (t1 t2 : Int) (b : Nat) (s : Sys)
    (h0 : 0 ≤ t1) (h1 : t1 < 65536) (h2 : t2 - t1 < 40) (hg : gateOpen t1 s) :
    ¬ gateOpen t2 (updateDebounceFsm i t1 b s) := by
  unfold gateOpen
  rw [updateDebounceFsm_timeToDebounce, if_pos hg]
  have hm : t1 % 2 ^ 16 = t1 := Int.emod_eq_of_lt h0 (by norm_num; exact h1)
  rw [hm, Int.toNat_of_nonneg h0]
  simp only [DEBOUNCETIME]
  omega

/-- In a reachable state, and while the timer reads less than 65536, a call made
less than 40 ms after a sampling call is a no-op. -/
theorem second_call_within_interval_is_noop (i j : Fin NUMBUTT) (t1 t2 : Int) (b1 b2 : Nat)
    (s : Sys) (hr : Reachable s) (h0 : 0 ≤ t1) (h1 : t1 < 65536) (h2 : t2 - t1 < 40)
    (hg : gateOpen t1 s) :
    updateDebounceFsm j t2 b2 (updateDebounceFsm i t1 b1 s) = updateDebounceFsm i t1 b1 s :=
  updateDebounceFsm_of_none j t2 b2 _
    ((processedEvent_eq_none_iff j t2 b2 _).2
      ⟨gate_closed_within_interval i t1 t2 b1 s h0 h1 h2 hg,
        reachable_event _ (Reachable.step i t1 b1 s hr) j⟩)

/-- C6: when the stored event of button `index` is `EV_NONE` and the gate is
closed, `updateDebounceFsm(index)` returns the system state unchanged: current
state, event, mask, timestamp, output and the log of callback calls. Hence any
number of such calls leaves the state as it was. -/
theorem idle_step_is_noop (index : Fin NUMBUTT) (s : Sys)
    (hev : (s.myButtons index).event = EV_NONE) :
    (∀ (now : Int) (buttonArray : Nat), ¬ gateOpen now s →
        updateDebounceFsm index now buttonArray s = s) ∧
      (∀ reads : List (Int × Nat), (∀ r ∈ reads, ¬ gateOpen r.1 s) →
        runUpdates index reads s = s) := by
  have one : ∀ (now : Int) (buttonArray : Nat), ¬ gateOpen now s →
      updateDebounceFsm index now buttonArray s = s := fun now buttonArray hg =>
    updateDebounceFsm_of_none index now buttonArray s
      ((processedEvent_eq_none_iff index now buttonArray s).2 ⟨hg, hev⟩)
  refine ⟨one, fun reads => ?_⟩
  induction reads with
  | nil => intro _; rfl
  | cons r rest ih =>
    intro h
    obtain ⟨now, buttonArray⟩ := r
    have hr : ¬ gateOpen now s := h (now, buttonArray) (List.mem_cons_self _ _)
    simp only [runUpdates]
    rw [one now buttonArray hr]
    exact ih fun r hmem => h r (List.mem_cons_of_mem _ hmem)

/-- Idle calls for button 2 at start-up, before the first 40 ms have elapsed. -/
theorem idle_step_is_noop_witness :
    (startUp.myButtons 2).event = EV_NONE ∧ ¬ gateOpen 39 startUp ∧
      updateDebounceFsm 2 39 0 startUp = startUp ∧
      runUpdates 2 [(10, 0), (20, 11), (39, 15)] startUp = startUp :=
  ⟨by decide, by decide,
    (idle_step_is_noop 2 startUp (by decide)).1 39 0 (by decide),
    (idle_step_is_noop 2 startUp (by decide)).2 [(10, 0), (20, 11), (39, 15)] (by decide)⟩

/-- C7: after `initializeButtons`, for every four-bit output `L`,
`onButtonEvent` called with `index` writes back `L` with bit `index` inverted
and every other bit unchanged, that is `L xor 2 ^ index`, and changes no button
record. -/
theorem onButtonEvent_toggles_own_bit (index : Fin NUMBUTT) (s0 : Sys) (L : Nat)
    (hL : L < 16) :
    (onButtonEvent index { initializeButtons s0 with lesdArray := L }).lesdArray =
        L ^^^ 2 ^ index.val ∧
      (∀ k, (onButtonEvent index { initializeButtons s0 with lesdArray := L }).lesdArray.testBit k
        = Bool.xor (L.testBit k) (decide (k = index.val))) ∧
      (onButtonEvent index { initializeButtons s0 with lesdArray := L }).myButtons =
        (initializeButtons s0).myButtons := by
  have hm : (({ initializeButtons s0 with lesdArray := L } : Sys).myButtons index).mask =
      1 <<< index.val := by
    show ((initializeButtons s0).myButtons index).mask = _
    rw [initializeButtons_myButtons]; rfl
  have hl := onButtonEvent_lesdArray index { initializeButtons s0 with lesdArray := L } hm hL
  refine ⟨?_, fun k => ?_, rfl⟩
  · rw [hl, Nat.one_shiftLeft]
  · rw [hl]; exact testBit_xor_one_shiftLeft L index.val k

/-- The callback for button 2 on the output `0b0101` gives `0b0001`. -/
theorem onButtonEvent_toggles_own_bit_witness :
    (5 : Nat) < 16 ∧
      (onButtonEvent 2 { initializeButtons (powerOn fun _ => zeroButton) with
        lesdArray := 5 }).lesdArray = 1 :=
  ⟨by decide, (onButtonEvent_toggles_own_bit 2 (powerOn fun _ => zeroButton) 5 (by decide)).1⟩

/-- In a reachable state the processed event is `EV_NONE` exactly when the gate
is closed. -/
theorem reachable_processedEvent_none_iff (s : Sys) (h : Reachable s) (index : Fin NUMBUTT)
    (now : Int) (buttonArray : Nat) :
    processedEvent index now buttonArray s = EV_NONE ↔ ¬ gateOpen now s := by
  rw [processedEvent_eq_none_iff]
  exact ⟨fun h => h.1, fun hg => ⟨hg, reachable_event s h index⟩⟩

/-- C8: every call `updateDebounceFsm(index)` returns with the stored event of
button `index` equal to `EV_NONE`, whatever the timer, the inputs and the prior
state. Consequently all four stored events are `EV_NONE` in every state
reachable from `initializeButtons`, and there a call runs the table scan
exactly when it takes a sample, once: a call that takes no sample changes
nothing, and otherwise both counters advance by one. -/
theorem event_consumed_by_every_call (index : Fin NUMBUTT) (now : Int) (buttonArray : Nat)
    (s : Sys) :
    ((updateDebounceFsm index now buttonArray s).myButtons index).event = EV_NONE ∧
      (Reachable s → ∀ j, (s.myButtons j).event = EV_NONE) ∧
      (Reachable s → ¬ gateOpen now s → updateDebounceFsm index now buttonArray s = s) ∧
      (Reachable s → gateOpen now s →
        (updateDebounceFsm index now buttonArray s).samples = s.samples + 1 ∧
          (updateDebounceFsm index now buttonArray s).scans = s.scans + 1) := by
  refine ⟨updateDebounceFsm_event index now buttonArray s, fun h j => reachable_event s h j,
    fun h hg => ?_, fun h hg => ⟨?_, ?_⟩⟩
  · exact updateDebounceFsm_of_none index now buttonArray s
      ((reachable_processedEvent_none_iff s h index now buttonArray).2 hg)
  · rw [updateDebounceFsm_samples, if_pos hg]
  · have hne : processedEvent index now buttonArray s ≠ EV_NONE := fun e =>
      (reachable_processedEvent_none_iff s h index now buttonArray).1 e hg
    rw [updateDebounceFsm_scans, if_neg hne]

/-- C9: the pairs of a state and an event other than `EV_NONE` that have no row
in `fsmTable` are exactly (Up, NotPressed) and (Down, Pressed); a call of
`updateDebounceFsm` that processes such a pair leaves the current state of the
button unchanged, does not call the callback and leaves the output unchanged. -/
theorem unmatched_pair_is_noop (index : Fin NUMBUTT) (now : Int) (buttonArray : Nat) (s : Sys)
    (h : ((s.myButtons index).currentState = BUTTON_UP ∧
          processedEvent index now buttonArray s = EV_NOT_PRESSED) ∨
        ((s.myButtons index).currentState = BUTTON_DOWN ∧
          processedEvent index now buttonArray s = EV_PRESSED)) :
    (∀ row ∈ fsmTable, ¬ (row.currentState = (s.myButtons index).currentState ∧
        row.event = processedEvent index now buttonArray s)) ∧
      ((updateDebounceFsm index now buttonArray s).myButtons index).currentState =
        (s.myButtons index).currentState ∧
      (updateDebounceFsm index now buttonArray s).calls = s.calls ∧
      (updateDebounceFsm index now buttonArray s).lesdArray = s.lesdArray := by
  rw [updateDebounceFsm_currentState, updateDebounceFsm_calls, updateDebounceFsm_lesdArray]
  rcases h with ⟨hs, he⟩ | ⟨hs, he⟩ <;> rw [hs, he] <;> refine ⟨by decide, rfl, ?_, ?_⟩ <;> simp

/-- The pairs without a row: among the events other than `EV_NONE`, no row of
`fsmTable` matches exactly (Up, NotPressed) and (Down, Pressed). -/
theorem unmatched_pairs :
    ∀ (st : _eButtonState) (ev : _eEvent), ev ≠ EV_NONE →
      ((∀ row ∈ fsmTable, ¬ (row.currentState = st ∧ row.event = ev)) ↔
        (st = BUTTON_UP ∧ ev = EV_NOT_PRESSED) ∨ (st = BUTTON_DOWN ∧ ev = EV_PRESSED)) := by
  intro st ev
  cases st <;> cases ev <;> decide

/-- An initialised button whose first gated sample reads bit 0 set stays in
`BUTTON_UP`; there is no call of the callback and no change of the output. -/
theorem unmatched_pair_is_noop_witness :
    (startUp.myButtons 0).currentState = BUTTON_UP ∧ gateOpen 40 startUp ∧
      processedEvent 0 40 15 startUp = EV_NOT_PRESSED ∧
      ((updateDebounceFsm 0 40 15 startUp).myButtons 0).currentState = BUTTON_UP ∧
      (updateDebounceFsm 0 40 15 startUp).calls = [] ∧
      (updateDebounceFsm 0 40 15 startUp).lesdArray = 0 :=
  ⟨by decide, by decide, by decide,
    (unmatched_pair_is_noop 0 40 15 startUp (Or.inl ⟨by decide, by decide⟩)).2⟩

/-- The polarity of a sample: when the gate is open and the mask of the button
selects bit `index`, the processed event depends on bit `index` of the input
only, set giving `EV_NOT_PRESSED` and clear giving `EV_PRESSED`. -/
theorem processedEvent_polarity (index : Fin NUMBUTT) (now : Int) (buttonArray : Nat) (s : Sys)
    (hm : (s.myButtons index).mask = 1 <<< index.val) (hg : gateOpen now s) :
    processedEvent index now buttonArray s =
      if buttonArray.testBit index.val then EV_NOT_PRESSED else EV_PRESSED := by
  rw [processedEvent_of_open _ _ _ _ hg, hm]
  by_cases hb : buttonArray.testBit index.val = true
  · rw [if_pos ((and_one_shiftLeft_ne_zero_iff _ _).2 hb), if_pos hb]
  · rw [if_neg (fun h => hb ((and_one_shiftLeft_ne_zero_iff _ _).1 h)), if_neg hb]

/-- C10: at start-up a call for button 2 at 100000 ms finds the gate open and
derives the event from bit 2 of the input alone (`0b1011` gives `EV_PRESSED`,
`0b0100` gives `EV_NOT_PRESSED`), but the timestamp it stores is
100000 mod 65536 = 34464, not the timer reading. -/
theorem timestamp_is_not_the_reading :
    gateOpen 100000 startUp ∧
      processedEvent 2 100000 11 startUp = EV_PRESSED ∧
      processedEvent 2 100000 4 startUp = EV_NOT_PRESSED ∧
      (updateDebounceFsm 2 100000 11 startUp).timeToDebounce = 34464 ∧
      ((updateDebounceFsm 2 100000 11 startUp).timeToDebounce : Int) ≠ 100000 := by
  decide

/-! ## No call through a null pointer after initialisation -/

theorem sampleInput_fault (index : Fin NUMBUTT) (now : Int) (buttonArray : Nat) (s : Sys) :
    (sampleInput index now buttonArray s).fault = s.fault := by
  unfold sampleInput; split <;> rfl

/-- A call of `updateDebounceFsm` for a button whose callback is bound makes no
call through a null pointer. -/
theorem updateDebounceFsm_fault (index : Fin NUMBUTT) (now : Int) (buttonArray : Nat)
    (s : Sys) (ha : (s.myButtons index).action = callAction.onButtonEvent) :
    (updateDebounceFsm index now buttonArray s).fault = s.fault := by
  by_cases h : processedEvent index now buttonArray s = EV_NONE
  · rw [updateDebounceFsm_of_none _ _ _ _ h]
  · rw [updateDebounceFsm_of_event _ _ _ _ h, ha]
    split <;> simp [callAction.call, onButtonEvent, sampleInput_fault]

/-- In the states reachable from `initializeButtons` no call of
`updateDebounceFsm` raises `fault`. -/
theorem reachable_no_fault (s : Sys) (h : Reachable s) (index : Fin NUMBUTT) (now : Int)
    (buttonArray : Nat) : (updateDebounceFsm index now buttonArray s).fault = s.fault :=
  updateDebounceFsm_fault index now buttonArray s (reachable_action s h index)

/-! ## Runs of calls and the main loop -/

/-- A call for another button does not change how often the callback of button
`i` has been called. -/
theorem count_calls_other (i j : Fin NUMBUTT) (now : Int) (buttonArray : Nat) (s : Sys)
    (hj : j ≠ i) :
    (updateDebounceFsm j now buttonArray s).calls.count i = s.calls.count i := by
  rw [updateDebounceFsm_calls]
  split
  · rw [List.count_append]
    simp [List.count_cons, hj]
  · rfl

/-- A button in `BUTTON_UP` that processes anything but `EV_PRESSED` stays in
`BUTTON_UP` without a call of the callback. -/
theorem up_without_pressed (i : Fin NUMBUTT) (now : Int) (buttonArray : Nat) (s : Sys)
    (hs : (s.myButtons i).currentState = BUTTON_UP)
    (he : processedEvent i now buttonArray s ≠ EV_PRESSED) :
    ((updateDebounceFsm i now buttonArray s).myButtons i).currentState = BUTTON_UP ∧
      (updateDebounceFsm i now buttonArray s).calls = s.calls := by
  rw [updateDebounceFsm_currentState, updateDebounceFsm_calls, hs]
  cases hev : processedEvent i now buttonArray s
  · exact absurd hev he
  · exact ⟨rfl, by simp⟩
  · exact ⟨rfl, by simp⟩

/-- While button `i` is in `BUTTON_UP` and processes no `EV_PRESSED`, its
callback is not called, whatever is done for the other buttons. -/
theorem no_call_without_pressed (i : Fin NUMBUTT) (cs : List (Fin NUMBUTT × Int × Nat)) :
    ∀ s : Sys, (s.myButtons i).currentState = BUTTON_UP →
      ProcessesOnly i (fun e => e != EV_PRESSED) cs s →
      (runCalls cs s).calls.count i = s.calls.count i := by
  induction cs with
  | nil => intro s _ _; rfl
  | cons c rest ih =>
    obtain ⟨j, now, buttonArray⟩ := c
    intro s hs hp
    obtain ⟨h1, h2⟩ := hp
    simp only [runCalls]
    by_cases hj : j = i
    · subst hj
      have he : processedEvent j now buttonArray s ≠ EV_PRESSED := by
        have := h1 rfl
        intro e
        rw [e] at this
        exact absurd this (by decide)
      obtain ⟨hs2, hc⟩ := up_without_pressed j now buttonArray s hs he
      rw [ih _ hs2 h2, hc]
    · have hs2 : ((updateDebounceFsm j now buttonArray s).myButtons i).currentState =
          BUTTON_UP := by
        rw [updateDebounceFsm_other j i now buttonArray s (fun e => hj e.symm)]; exact hs
      rw [ih _ hs2 h2, count_calls_other i j now buttonArray s hj]

/-- While button `i` processes no `EV_NOT_PRESSED`, its callback is not
called. -/
theorem no_call_without_not_pressed (i : Fin NUMBUTT) (cs : List (Fin NUMBUTT × Int × Nat)) :
    ∀ s : Sys, ProcessesOnly i (fun e => e != EV_NOT_PRESSED) cs s →
      (runCalls cs s).calls.count i = s.calls.count i := by
  induction cs with
  | nil => intro s _; rfl
  | cons c rest ih =>
    obtain ⟨j, now, buttonArray⟩ := c
    intro s hp
    obtain ⟨h1, h2⟩ := hp
    simp only [runCalls]
    rw [ih _ h2]
    by_cases hj : j = i
    · subst hj
      have he : processedEvent j now buttonArray s ≠ EV_NOT_PRESSED := by
        have := h1 rfl
        intro e
        rw [e] at this
        exact absurd this (by decide)
      rw [updateDebounceFsm_calls]
      simp [he]
    · exact count_calls_other i j now buttonArray s hj

/-- A call that calls the callback leaves the button in `BUTTON_UP`. -/
theorem up_after_call (i : Fin NUMBUTT) (now : Int) (buttonArray : Nat) (s : Sys)
    (hf : (updateDebounceFsm i now buttonArray s).calls ≠ s.calls) :
    ((updateDebounceFsm i now buttonArray s).myButtons i).currentState = BUTTON_UP := by
  rw [updateDebounceFsm_calls] at hf
  rw [updateDebounceFsm_currentState]
  by_cases h : (s.myButtons i).currentState = BUTTON_RISING ∧
      processedEvent i now buttonArray s = EV_NOT_PRESSED
  · rw [h.1, h.2]; rfl
  · rw [if_neg h] at hf
    exact absurd rfl hf

/-- No call of `updateDebounceFsm` that processes an event ends in
`BUTTON_FALLING`. -/
theorem scanOutcome_ne_falling (st : _eButtonState) (ev : _eEvent) (h : ev ≠ EV_NONE) :
    scanOutcome st ev ≠ BUTTON_FALLING := by
  cases st <;> cases ev <;> first | exact absurd rfl h | decide

theorem reachable_ne_falling (s : Sys) (h : Reachable s) (j : Fin NUMBUTT) :
    (s.myButtons j).currentState ≠ BUTTON_FALLING := by
  induction h with
  | init s0 => rw [initializeButtons_myButtons]; simp [initialButton]
  | step index now buttonArray s _ ih =>
    by_cases hj : j = index
    · subst hj
      by_cases he : processedEvent j now buttonArray s = EV_NONE
      · rw [updateDebounceFsm_of_none _ _ _ _ he]; exact ih
      · rw [updateDebounceFsm_currentState]; exact scanOutcome_ne_falling _ _ he
    · rw [updateDebounceFsm_other _ _ _ _ _ hj]; exact ih

/-- The heartbeat block does not read the button state, and the rest of an
iteration does not touch the heartbeat. -/
theorem mainLoopBody_heartbeat (now : Int) (reads : Fin NUMBUTT → Int × Nat) (m : MainState) :
    (mainLoopBody now reads m).hearbeat =
        (if HEARBEATTIME ≤ now - (m.hearbeat : Int) then (now % 2 ^ 16).toNat else m.hearbeat) ∧
      (mainLoopBody now reads m).hearbeatLed =
        (if HEARBEATTIME ≤ now - (m.hearbeat : Int) then (if m.hearbeatLed = 0 then 1 else 0)
         else m.hearbeatLed) := by
  unfold mainLoopBody mainHeartbeat
  split <;> exact ⟨rfl, rfl⟩

/-! ## Properties of the specification, C11 to C17 -/

/-- C11: after `initializeButtons`, whatever the records held before (null
function pointers included), every button `i` has `currentState = BUTTON_UP`,
stored event `EV_NONE`, mask `2 ^ i` (one bit, bit `i`, so the masks of two
buttons are equal only for the same button) and the callback `onButtonEvent`;
its state is one of the four defined states, here `BUTTON_UP`. -/
theorem initializeButtons_records (s0 : Sys) (i j : Fin NUMBUTT) :
    ((initializeButtons s0).myButtons i).currentState = BUTTON_UP ∧
      ((initializeButtons s0).myButtons i).event = EV_NONE ∧
      ((initializeButtons s0).myButtons i).mask = 2 ^ i.val ∧
      (∀ k, ((initializeButtons s0).myButtons i).mask.testBit k = decide (k = i.val)) ∧
      (((initializeButtons s0).myButtons i).mask = ((initializeButtons s0).myButtons j).mask ↔
        i = j) ∧
      ((initializeButtons s0).myButtons i).action = callAction.onButtonEvent := by
  rw [initializeButtons_myButtons, initializeButtons_myButtons]
  have hinj : ∀ a b : Fin NUMBUTT, (initialButton a).mask = (initialButton b).mask ↔ a = b := by
    decide
  refine ⟨rfl, rfl, Nat.one_shiftLeft _, fun k => ?_, hinj i j, rfl⟩
  show (1 <<< i.val).testBit k = _
  rw [Nat.one_shiftLeft, Nat.testBit_two_pow]
  by_cases h : k = i.val
  · simp [h]
  · have h2 : ¬ i.val = k := fun e => h e.symm
    simp [h, h2]

/-- At power-on the record of button 2 is zero: `BUTTON_DOWN`, `EV_PRESSED`, a
null function pointer, mask 0. After `initializeButtons` it is `BUTTON_UP`,
`EV_NONE`, `onButtonEvent`, mask `0b0100`. -/
theorem initializeButtons_records_witness :
    ((powerOn fun _ => zeroButton).myButtons 2).currentState = BUTTON_DOWN ∧
      ((powerOn fun _ => zeroButton).myButtons 2).event = EV_PRESSED ∧
      ((powerOn fun _ => zeroButton).myButtons 2).action = callAction.null ∧
      ((powerOn fun _ => zeroButton).myButtons 2).mask = 0 ∧
      (startUp.myButtons 2).currentState = BUTTON_UP ∧
      (startUp.myButtons 2).event = EV_NONE ∧
      (startUp.myButtons 2).mask = 4 ∧
      (startUp.myButtons 2).action = callAction.onButtonEvent :=
  ⟨rfl, rfl, rfl, rfl,
    (initializeButtons_records (powerOn fun _ => zeroButton) 2 2).1,
    (initializeButtons_records (powerOn fun _ => zeroButton) 2 2).2.1,
    (initializeButtons_records (powerOn fun _ => zeroButton) 2 2).2.2.1,
    (initializeButtons_records (powerOn fun _ => zeroButton) 2 2).2.2.2.2.2⟩

set_option maxRecDepth 20000 in
/-- C12: the loop of `main` runs with the timer reading 1000, 2000, ..., 66000
and then 66001. The heartbeat is inverted at 65000 and at 66000, where the
stored timestamp becomes 66000 mod 65536 = 464; in the next iteration, at
66001, one millisecond after the last inversion, the test 66001 - 464 >= 1000
holds and the heartbeat is inverted again. -/
theorem heartbeat_inverts_after_one_millisecond :
    (runMain 15 ((List.range 64).map fun k => 1000 * ((k : Int) + 1))
        (mainStart (powerOn fun _ => zeroButton))).hearbeatLed = 0 ∧
      (runMain 15 ((List.range 65).map fun k => 1000 * ((k : Int) + 1))
        (mainStart (powerOn fun _ => zeroButton))).hearbeatLed = 1 ∧
      (runMain 15 ((List.range 65).map fun k => 1000 * ((k : Int) + 1))
        (mainStart (powerOn fun _ => zeroButton))).hearbeat = 65000 ∧
      (runMain 15 ((List.range 66).map fun k => 1000 * ((k : Int) + 1))
        (mainStart (powerOn fun _ => zeroButton))).hearbeatLed = 0 ∧
      (runMain 15 ((List.range 66).map fun k => 1000 * ((k : Int) + 1))
        (mainStart (powerOn fun _ => zeroButton))).hearbeat = 464 ∧
      (runMain 15 (((List.range 66).map fun k => 1000 * ((k : Int) + 1)) ++ [66001])
        (mainStart (powerOn fun _ => zeroButton))).hearbeatLed = 1 := by
  decide

/-- While the stored timestamp is the reading of the last inversion, that is
for an inversion at a reading below 65536, the heartbeat is inverted exactly
when 1000 ms have elapsed since then. -/
theorem heartbeat_in_range (last now : Int) (reads : Fin NUMBUTT → Int × Nat) (m : MainState)
    (h0 : 0 ≤ last) (h1 : last < 65536) (hm : m.hearbeat = (last % 2 ^ 16).toNat) :
    (mainLoopBody now reads m).hearbeatLed ≠ m.hearbeatLed ↔ 1000 ≤ now - last := by
  have hl : ((last % 2 ^ 16).toNat : Int) = last := by
    rw [Int.emod_eq_of_lt h0 (by norm_num; exact h1), Int.toNat_of_nonneg h0]
  rw [(mainLoopBody_heartbeat now reads m).2, hm, hl]
  by_cases h : HEARBEATTIME ≤ now - last
  · rw [if_pos h]
    constructor
    · intro _; exact h
    · intro _; split <;> omega
  · rw [if_neg h]
    simp only [HEARBEATTIME] at h
    constructor
    · intro hne; exact absurd rfl hne
    · intro h2; omega

/-- C13: after a call of `updateDebounceFsm(i)` that called the callback, the
callback of button `i` is not called again as long as button `i` processes no
`EV_PRESSED` sample, whatever calls are made for the other buttons; so between
two calls of the callback at least one `EV_PRESSED` sample is processed. In
particular the very next call for button `i` does not call it, and neither does
any run in which button `i` processes no `EV_NOT_PRESSED`. -/
theorem callback_once_per_release (i : Fin NUMBUTT) (now : Int) (buttonArray : Nat) (s : Sys)
    (hf : (updateDebounceFsm i now buttonArray s).calls ≠ s.calls) :
    (∀ cs, ProcessesOnly i (fun e => e != EV_PRESSED) cs (updateDebounceFsm i now buttonArray s) →
        (runCalls cs (updateDebounceFsm i now buttonArray s)).calls.count i =
          (updateDebounceFsm i now buttonArray s).calls.count i) ∧
      (∀ (now2 : Int) (buttonArray2 : Nat),
        (updateDebounceFsm i now2 buttonArray2 (updateDebounceFsm i now buttonArray s)).calls =
          (updateDebounceFsm i now buttonArray s).calls) ∧
      (∀ cs, ProcessesOnly i (fun e => e != EV_NOT_PRESSED) cs
          (updateDebounceFsm i now buttonArray s) →
        (runCalls cs (updateDebounceFsm i now buttonArray s)).calls.count i =
          (updateDebounceFsm i now buttonArray s).calls.count i) := by
  have hup := up_after_call i now buttonArray s hf
  refine ⟨fun cs hp => no_call_without_pressed i cs _ hup hp, fun now2 buttonArray2 => ?_,
    fun cs hp => no_call_without_not_pressed i cs _ hp⟩
  rw [updateDebounceFsm_calls, hup]
  simp

/-- Button 0 is taken to `BUTTON_RISING` by the samples Pressed and NotPressed;
the call at 120 ms calls the callback, and the following calls, released
samples for button 0 and a press of button 1, do not call it again. -/
theorem callback_once_per_release_witness :
    (updateDebounceFsm 0 120 15 (runUpdates 0 [(40, 14), (80, 15)] startUp)).calls ≠
        (runUpdates 0 [(40, 14), (80, 15)] startUp).calls ∧
      (runCalls [(0, 160, 15), (1, 200, 13), (0, 240, 15)]
        (updateDebounceFsm 0 120 15 (runUpdates 0 [(40, 14), (80, 15)] startUp))).calls.count 0 =
        (updateDebounceFsm 0 120 15 (runUpdates 0 [(40, 14), (80, 15)] startUp)).calls.count 0 :=
  ⟨by decide,
    (callback_once_per_release 0 120 15 (runUpdates 0 [(40, 14), (80, 15)] startUp)
      (by decide)).1 [(0, 160, 15), (1, 200, 13), (0, 240, 15)] (by decide)⟩

/-- C14: in `fsmTable` every pair of a state and an event stands in at most one
of the six rows, and the row at position `BUTTON_RISING`, the position at which
the scan calls the callback, is (Rising, NotPressed) to Up. -/
theorem fsmTable_rows_unique :
    fsmTable.length = 6 ∧
      (fsmTable.map fun row => (row.currentState, row.event)).Nodup ∧
      BUTTON_RISING.toNat = 3 ∧
      fsmTable[BUTTON_RISING.toNat]? = some ⟨BUTTON_RISING, EV_NOT_PRESSED, BUTTON_UP⟩ := by
  decide

/-- C15: a call of `updateDebounceFsm` that processes an event never leaves the
button in `BUTTON_FALLING`; hence in every state reachable from
`initializeButtons` every button is in `BUTTON_UP`, `BUTTON_DOWN` or
`BUTTON_RISING`; and a button in `BUTTON_UP` that processes `EV_PRESSED` is in
`BUTTON_DOWN` after that single call. -/
theorem falling_is_never_observed (index : Fin NUMBUTT) (now : Int) (buttonArray : Nat)
    (s : Sys) :
    (processedEvent index now buttonArray s ≠ EV_NONE →
        ((updateDebounceFsm index now buttonArray s).myButtons index).currentState ≠
          BUTTON_FALLING) ∧
      (Reachable s → ∀ j, (s.myButtons j).currentState = BUTTON_UP ∨
        (s.myButtons j).currentState = BUTTON_DOWN ∨
        (s.myButtons j).currentState = BUTTON_RISING) ∧
      ((s.myButtons index).currentState = BUTTON_UP →
        processedEvent index now buttonArray s = EV_PRESSED →
        ((updateDebounceFsm index now buttonArray s).myButtons index).currentState =
          BUTTON_DOWN) := by
  refine ⟨fun he => ?_, fun hr j => ?_, fun hs he => ?_⟩
  · rw [updateDebounceFsm_currentState]; exact scanOutcome_ne_falling _ _ he
  · have := reachable_ne_falling s hr j
    cases hst : (s.myButtons j).currentState <;> simp_all
  · rw [updateDebounceFsm_currentState, hs, he]; rfl

/-- At start-up a pressed sample takes button 3 from `BUTTON_UP` to
`BUTTON_DOWN` in one call. -/
theorem falling_is_never_observed_witness :
    (startUp.myButtons 3).currentState = BUTTON_UP ∧
      processedEvent 3 40 7 startUp = EV_PRESSED ∧
      ((updateDebounceFsm 3 40 7 startUp).myButtons 3).currentState = BUTTON_DOWN ∧
      ((updateDebounceFsm 3 40 7 startUp).myButtons 3).currentState ≠ BUTTON_FALLING :=
  ⟨by decide, by decide,
    (falling_is_never_observed 3 40 7 startUp).2.2 (by decide) (by decide),
    (falling_is_never_observed 3 40 7 startUp).1 (by decide)⟩

/-- Inverting bit `i` leaves every other bit as it was. -/
theorem testBit_xor_one_shiftLeft_of_ne (L i k : Nat) (h : k ≠ i) :
    (L ^^^ (1 <<< i)).testBit k = L.testBit k := by
  rw [testBit_xor_one_shiftLeft]
  simp [h]

/-- C16: on an initialised system with a four-bit output, a call
`updateDebounceFsm(i)` leaves the record of every other button `j` unchanged
and leaves the mask and the callback of button `i` unchanged; the output is
unchanged unless the callback is called, and then it is the old output with bit
`i` inverted, so no bit other than bit `i` ever changes. -/
theorem frame_of_a_step (i j : Fin NUMBUTT) (now : Int) (buttonArray : Nat) (s : Sys)
    (hr : Reachable s) (hL : s.lesdArray < 16) (hij : j ≠ i) :
    (updateDebounceFsm i now buttonArray s).myButtons j = s.myButtons j ∧
      ((updateDebounceFsm i now buttonArray s).myButtons i).mask = (s.myButtons i).mask ∧
      ((updateDebounceFsm i now buttonArray s).myButtons i).action = (s.myButtons i).action ∧
      (updateDebounceFsm i now buttonArray s).lesdArray =
        (if (updateDebounceFsm i now buttonArray s).calls = s.calls then s.lesdArray
         else s.lesdArray ^^^ (1 <<< i.val)) ∧
      (∀ k, k ≠ i.val →
        (updateDebounceFsm i now buttonArray s).lesdArray.testBit k = s.lesdArray.testBit k) := by
  have hout : (updateDebounceFsm i now buttonArray s).lesdArray =
      (if (updateDebounceFsm i now buttonArray s).calls = s.calls then s.lesdArray
       else s.lesdArray ^^^ (1 <<< i.val)) := by
    rw [updateDebounceFsm_lesdArray, updateDebounceFsm_calls]
    by_cases h : (s.myButtons i).currentState = BUTTON_RISING ∧
        processedEvent i now buttonArray s = EV_NOT_PRESSED
    · rw [if_pos h, if_pos h, if_neg (by simp), reachable_action s hr i, call_onButtonEvent,
        onButtonEvent_lesdArray i s (reachable_mask s hr i) hL]
    · rw [if_neg h, if_neg h, if_pos rfl]
  refine ⟨updateDebounceFsm_other i j now buttonArray s hij,
    updateDebounceFsm_mask i i now buttonArray s,
    updateDebounceFsm_action i i now buttonArray s, hout, fun k hk => ?_⟩
  rw [hout]
  split
  · rfl
  · exact testBit_xor_one_shiftLeft_of_ne _ _ _ hk

/-- Button 0 in `BUTTON_RISING` at start-up plus two samples: the call at 120 ms
calls the callback, the record of button 1 stays as it was and the output goes
from `0b0000` to `0b0001`. -/
theorem frame_of_a_step_witness :
    Reachable (runUpdates 0 [(40, 14), (80, 15)] startUp) ∧
      (runUpdates 0 [(40, 14), (80, 15)] startUp).lesdArray < 16 ∧
      (1 : Fin NUMBUTT) ≠ 0 ∧
      (updateDebounceFsm 0 120 15 (runUpdates 0 [(40, 14), (80, 15)] startUp)).myButtons 1 =
        (runUpdates 0 [(40, 14), (80, 15)] startUp).myButtons 1 ∧
      (updateDebounceFsm 0 120 15 (runUpdates 0 [(40, 14), (80, 15)] startUp)).lesdArray = 1 :=
  ⟨Reachable.step 0 80 15 _ (Reachable.step 0 40 14 _ reachable_startUp), by decide, by decide,
    (frame_of_a_step 0 1 120 15 (runUpdates 0 [(40, 14), (80, 15)] startUp)
      (Reachable.step 0 80 15 _ (Reachable.step 0 40 14 _ reachable_startUp)) (by decide)
      (by decide)).1,
    by decide⟩

/-- C17, as stated, fails between 65536 and 65574: at start-up a call at
65535 ms takes a sample and stores the timestamp 65535; the calls at 65536 ms
and at 65574 ms find the gate closed and take no sample, although the timer
reads 65536 or more. -/
theorem gate_closed_just_after_65536 :
    gateOpen 65535 startUp ∧
      (updateDebounceFsm 0 65535 15 startUp).timeToDebounce = 65535 ∧
      ¬ gateOpen 65536 (updateDebounceFsm 0 65535 15 startUp) ∧
      (updateDebounceFsm 1 65536 13 (updateDebounceFsm 0 65535 15 startUp)).samples =
        (updateDebounceFsm 0 65535 15 startUp).samples ∧
      ¬ gateOpen 65574 (updateDebounceFsm 0 65535 15 startUp) := by
  decide

/-- C17, amended: the timestamp is a 16-bit value while the timer reading is an
`int`, so for every timer reading of 65575 (65535 + 40) or more and every
stored timestamp the gate test is true and the call samples the input; whereas
for readings `0 ≤ t1 ≤ t2 < 65536` a sample taken at `t1` closes the gate at
`t2` exactly when `t2 - t1 < 40`. -/
theorem gate_always_open_from_65575 (index : Fin NUMBUTT) (now t1 t2 : Int)
    (buttonArray : Nat) (s : Sys) :
    (s.timeToDebounce < 2 ^ 16 → 65575 ≤ now →
        gateOpen now s ∧
          (updateDebounceFsm index now buttonArray s).samples = s.samples + 1 ∧
          (updateDebounceFsm index now buttonArray s).timeToDebounce = (now % 2 ^ 16).toNat) ∧
      (0 ≤ t1 → t1 ≤ t2 → t2 < 65536 → gateOpen t1 s →
        (¬ gateOpen t2 (updateDebounceFsm index t1 buttonArray s) ↔ t2 - t1 < 40)) := by
  constructor
  · intro hts hnow
    have hg : gateOpen now s := by
      unfold gateOpen
      simp only [DEBOUNCETIME]
      have : (s.timeToDebounce : Int) < 65536 := by
        have := Int.ofNat_lt.mpr hts
        simpa using this
      omega
    refine ⟨hg, ?_, ?_⟩
    · rw [updateDebounceFsm_samples, if_pos hg]
    · rw [updateDebounceFsm_timeToDebounce, if_pos hg]
  · intro h0 h12 h2 hg
    unfold gateOpen
    rw [updateDebounceFsm_timeToDebounce, if_pos hg]
    have hm : t1 % 2 ^ 16 = t1 := Int.emod_eq_of_lt h0 (by norm_num; omega)
    rw [hm, Int.toNat_of_nonneg h0]
    simp only [DEBOUNCETIME]
    omega

/-- At start-up the gate is open at 65575 ms; a sample at 100 ms closes the gate
at 139 ms and leaves it open at 140 ms. -/
theorem gate_always_open_from_65575_witness :
    startUp.timeToDebounce < 2 ^ 16 ∧ gateOpen 65575 startUp ∧
      (updateDebounceFsm 2 65575 15 startUp).samples = startUp.samples + 1 ∧
      gateOpen 100 startUp ∧
      ¬ gateOpen 139 (updateDebounceFsm 2 100 15 startUp) ∧
      gateOpen 140 (updateDebounceFsm 2 100 15 startUp) :=
  ⟨by decide,
    ((gate_always_open_from_65575 2 65575 100 139 15 startUp).1 (by decide) (by decide)).1,
    ((gate_always_open_from_65575 2 65575 100 139 15 startUp).1 (by decide) (by decide)).2.1,
    by decide,
    ((gate_always_open_from_65575 2 65575 100 139 15 startUp).2 (by decide) (by decide)
      (by decide) (by decide)).2 (by decide),
    by decide⟩

end DebounceFsm
